import Mathlib

/-!
# Verification of the BabyAGI scheduler loop

Shallow embedding of the autonomous task-execution core of the BabyAGI PWA:
the Zustand agent store (`agentStore.ts`) and the scheduler hook
(`useAgent.ts`, `executeAgentIteration`).  The repository bundles two
revisions of `useAgent.ts`; only the first one type-checks against the
store provided here (the second calls `setIsRunning`, `clearTasks`, … which
the store does not expose), so the first revision is the one embedded.

The scheduler's `executeAgentIteration` is an `async` function with exactly
one suspension point (the awaited executor call).  It is embedded as two
phases: `executeAgentIterationStart` (everything before the `await`:
guards, budget check, seeding, selection, marking the task `running`) and
`executeAgentIterationResolve` (everything after the `await`: committing
the result, logs, follow-ups, the milestone check).  The sequential
composition `executeAgentIteration` models a tick whose executor call
resolves before anything else happens; applying the phases in other orders
models the interleavings that the `setInterval`-driven timer can produce.

Values the loop receives from collaborators outside the embedded core
(generated initial tasks, the executor outcome, follow-up tasks, the
current clock value) are passed in as parameters.  Log-entry `id` and
`timestamp` fields, generated from `Date.now()`/`Math.random()`, are
omitted from `LogEntry`; no verified property depends on them.
-/

namespace BabyAGI

/-- Task lifecycle status, from `lib/types/index.ts` (`TaskStatus`). -/
inductive TaskStatus
  | pending
  | running
  | completed
  | failed
deriving DecidableEq, Repr

/-- Log entry categories, from `lib/types/index.ts` (`LogType`). -/
inductive LogType
  | info
  | success
  | warning
  | error
  | task
  | result
  | thinking
  | milestone
deriving DecidableEq, Repr

/-- Executor selection mode, from `lib/types/index.ts` (`AgentMode`). -/
inductive AgentMode
  | simulated
  | ai
deriving DecidableEq, Repr

/-- UI theme, from `lib/types/index.ts` (`Theme`). -/
inductive Theme
  | light
  | dark
deriving DecidableEq, Repr

/-- LLM provider choice, from `lib/types/index.ts` (`Settings.provider`). -/
inductive Provider
  | openrouter
  | openai
  | anthropic
deriving DecidableEq, Repr

/-- A unit of work, from `lib/types/index.ts` (`Task`). -/
structure Task where
  id : String
  description : String
  status : TaskStatus
  priority : Int
  createdAt : Nat
  completedAt : Option Nat := none
  result : Option String := none
  dependencies : Option (List String) := none
deriving DecidableEq, Repr

/-- An execution-log record, from `lib/types/index.ts` (`LogEntry`); the
`id` and `timestamp` fields generated inside `addLog` are omitted. -/
structure LogEntry where
  type : LogType
  message : String
  icon : String
deriving DecidableEq, Repr

/-- Tuning settings, from `lib/types/index.ts` (`Settings`).  `temperature`
is a floating-point value in the source; it is carried opaquely here (as an
integer) and never used by the embedded logic. -/
structure Settings where
  apiKey : String
  provider : Provider
  model : String
  temperature : Int
  iterationDelay : Nat
  maxTokens : Nat
  enableSounds : Bool
  autoScroll : Bool
  maxIterations : Nat
deriving DecidableEq, Repr

/-- The whole agent state, from `lib/types/index.ts` (`AgentState`) /
`agentStore.ts`. -/
structure AgentState where
  objective : String
  tasks : List Task
  executionLog : List LogEntry
  isRunning : Bool
  isPaused : Bool
  currentIteration : Nat
  maxIterations : Nat
  mode : AgentMode
  settings : Settings
  theme : Theme
  sidebarCollapsed : Bool
  selectedTask : Option String
  sessionId : String
deriving DecidableEq, Repr

/-- The partial update passed to the store's `updateTask`; the loop only
ever updates `status`, but the merge keeps the general shape of the
TypeScript object spread. -/
structure TaskUpdate where
  status : Option TaskStatus := none
  result : Option String := none
  completedAt : Option Nat := none
deriving DecidableEq, Repr

/-- The object-spread merge `{ ...task, ...updates }` used by `updateTask`. -/
def applyTaskUpdate (t : Task) (u : TaskUpdate) : Task :=
  { t with
    status := u.status.getD t.status
    result := match u.result with | some r => some r | none => t.result
    completedAt := match u.completedAt with | some c => some c | none => t.completedAt }

/-- Store action `setObjective` (`agentStore.ts`): unconditionally replaces
the objective. -/
def setObjective (s : AgentState) (objective : String) : AgentState :=
  { s with objective := objective }

/-- Store action `startAgent` (`agentStore.ts`). -/
def startAgent (s : AgentState) : AgentState :=
  { s with isRunning := true, isPaused := false }

/-- Store action `pauseAgent` (`agentStore.ts`). -/
def pauseAgent (s : AgentState) : AgentState :=
  { s with isPaused := true }

/-- Store action `resetAgent` (`agentStore.ts`); `now` is the
`Date.now()` value read when the reset runs, and the new `sessionId` is its
decimal string. -/
def resetAgent (s : AgentState) (now : Nat) : AgentState :=
  { s with
    objective := ""
    tasks := []
    executionLog := []
    isRunning := false
    isPaused := false
    currentIteration := 0
    selectedTask := none
    sessionId := toString now }

/-- Store action `addTask` (`agentStore.ts`): append to the task list. -/
def addTask (s : AgentState) (t : Task) : AgentState :=
  { s with tasks := s.tasks ++ [t] }

/-- Store action `updateTask` (`agentStore.ts`): merge the update into
every task whose id matches (ids are expected to be unique). -/
def updateTask (s : AgentState) (taskId : String) (u : TaskUpdate) : AgentState :=
  { s with tasks := s.tasks.map fun t => if t.id = taskId then applyTaskUpdate t u else t }

/-- Store action `completeTask` (`agentStore.ts`): mark completed, record
the result and the completion time. -/
def completeTask (s : AgentState) (taskId : String) (res : String) (now : Nat) : AgentState :=
  { s with tasks := s.tasks.map fun t =>
      if t.id = taskId then
        { t with status := TaskStatus.completed, result := some res, completedAt := some now }
      else t }

/-- Store action `addLog` (`agentStore.ts`): append-only. -/
def addLog (s : AgentState) (e : LogEntry) : AgentState :=
  { s with executionLog := s.executionLog ++ [e] }

/-- Store action `incrementIteration` (`agentStore.ts`). -/
def incrementIteration (s : AgentState) : AgentState :=
  { s with currentIteration := s.currentIteration + 1 }

/-- Store action `setMode` (`agentStore.ts`). -/
def setMode (s : AgentState) (m : AgentMode) : AgentState :=
  { s with mode := m }

/-- `hasPendingDependencies` from `useAgent.ts`: a task is blocked when
some listed dependency id resolves (via `find`) to a task whose status is
not `completed`; an id that matches no task does not block. -/
def hasPendingDependencies (task : Task) (allTasks : List Task) : Bool :=
  match task.dependencies with
  | none => false
  | some deps =>
    if deps.length = 0 then false
    else deps.any fun depId =>
      match allTasks.find? (fun t => t.id == depId) with
      | none => false
      | some depTask => depTask.status != TaskStatus.completed

/-- Stable insertion used by `prioritizeTasks`: walk past strictly higher
priorities so that equal priorities keep their original relative order. -/
def insertByPriority (t : Task) : List Task → List Task
  | [] => [t]
  | u :: us => if u.priority > t.priority then u :: insertByPriority t us else t :: u :: us

/-- Modelled from the spec: `prioritizeTasks` lives in
`services/taskGenerator.ts`, which is not among the provided sources;
spec §4.1 defines it as a stable sort by `priority` descending with ties
broken by original insertion order. -/
def prioritizeTasks (tasks : List Task) : List Task :=
  tasks.foldr insertByPriority []

/-- The predicate of the `find` in `executeAgentIteration`'s Selecting
phase: `t.status === 'pending' && !hasPendingDependencies(t, state.tasks)`. -/
def selectable (allTasks : List Task) (t : Task) : Bool :=
  t.status == TaskStatus.pending && !hasPendingDependencies t allTasks

/-- The Selecting phase of `executeAgentIteration`: first selectable task
of the prioritized list. -/
def selectNextTask (tasks : List Task) : Option Task :=
  (prioritizeTasks tasks).find? (selectable tasks)

/-- Number of tasks with status `completed`. -/
def completedCount (ts : List Task) : Nat :=
  (ts.filter fun t => t.status == TaskStatus.completed).length

/-- `Math.floor((completedCount / totalCount) * 100)` from the milestone
check, embedded as natural-number division (the floor of the exact
rational; the JavaScript double computation agrees with it at every input
evaluated in this development). -/
def progressPercent (ts : List Task) : Nat :=
  completedCount ts * 100 / ts.length

/-- Log entry for the budget stop (`Reached maximum iterations`). -/
def maxIterationsEntry (m : Nat) : LogEntry :=
  ⟨LogType.milestone, "🎯 Reached maximum iterations (" ++ toString m ++ "). Agent stopped.", "🎯"⟩

/-- Log entry reporting the seeded initial tasks. -/
def initialTasksEntry (n : Nat) : LogEntry :=
  ⟨LogType.info, "📝 Generated " ++ toString n ++ " initial tasks", "📝"⟩

/-- Log entry for the all-tasks-resolved stop. -/
def allCompletedEntry : LogEntry :=
  ⟨LogType.milestone, "✅ All tasks completed! Objective achieved.", "✅"⟩

/-- Log entry announcing the start of a task. -/
def taskStartedEntry (description : String) : LogEntry :=
  ⟨LogType.task, "▶️ Starting: " ++ description, "▶️"⟩

/-- The per-mode log emitted just before the executor call: `thinking` in
AI mode with an API key, `info` otherwise. -/
def modeEntry (s : AgentState) : LogEntry :=
  if s.mode == AgentMode.ai && s.settings.apiKey != "" then
    ⟨LogType.thinking, "💭 AI is thinking...", "💭"⟩
  else
    ⟨LogType.info, "🔍 Processing task...", "🔍"⟩

/-- Log entry for a completed task. -/
def taskCompletedEntry (description : String) : LogEntry :=
  ⟨LogType.success, "✅ Completed: " ++ description, "✅"⟩

/-- Log entry carrying the executor's result text. -/
def resultEntry (res : String) : LogEntry :=
  ⟨LogType.result, "📊 Result: " ++ res, "📊"⟩

/-- Log entry reporting appended follow-up tasks. -/
def followUpEntry (n : Nat) : LogEntry :=
  ⟨LogType.info, "📝 Generated " ++ toString n ++ " follow-up task(s)", "📝"⟩

/-- Log entry for a crossed completion-ratio milestone. -/
def progressMilestoneEntry (p : Nat) : LogEntry :=
  ⟨LogType.milestone, "🎯 Milestone: " ++ toString p ++ "% complete!", "🎯"⟩

/-- Log entry for a failed task; `msg` is the caught error's message. -/
def taskFailedEntry (msg : String) : LogEntry :=
  ⟨LogType.error, "❌ Failed: " ++ msg, "❌"⟩

/-- Phase 1 of `executeAgentIteration` (`useAgent.ts`): everything up to
the awaited executor call, acting on the store snapshot `s0` taken at tick
start.  `initialTasks` stands for `generateInitialTasks(state.objective)`
(`taskGenerator.ts`, not among the provided sources).  Returns the store
state as mutated so far, plus the selected task when the tick goes on to
execute (the suspension point), or `none` when the tick returned early. -/
def executeAgentIterationStart (s0 : AgentState) (initialTasks : List Task) :
    AgentState × Option Task :=
  if s0.isRunning = false ∨ s0.isPaused = true then
    (s0, none)
  else if s0.maxIterations ≤ s0.currentIteration then
    (pauseAgent (addLog s0 (maxIterationsEntry s0.maxIterations)), none)
  else if s0.tasks.length = 0 ∧ s0.objective ≠ "" then
    (addLog (initialTasks.foldl addTask s0) (initialTasksEntry initialTasks.length), none)
  else
    match selectNextTask s0.tasks with
    | none =>
      if (∀ t ∈ s0.tasks, t.status = TaskStatus.completed ∨ t.status = TaskStatus.failed) ∧
          0 < completedCount s0.tasks then
        (pauseAgent (addLog s0 allCompletedEntry), none)
      else
        (s0, none)
    | some nextTask =>
      let s1 := incrementIteration s0
      let s2 := updateTask s1 nextTask.id { status := some TaskStatus.running }
      let s3 := addLog s2 (taskStartedEntry nextTask.description)
      (addLog s3 (modeEntry s0), some nextTask)

/-- The `if (followUpTasks.length > 0)` block of `executeAgentIteration`:
append the follow-ups and report them. -/
def followUpStep (followUps : List Task) (s : AgentState) : AgentState :=
  if 0 < followUps.length then
    addLog (followUps.foldl addTask s) (followUpEntry followUps.length)
  else s

/-- The `// Check milestones` block of `executeAgentIteration`: the counts
are read from the snapshot `s0` taken at tick start (the source reads
`state.tasks`, captured before this tick's mutations), and only 25, 50 and
75 are recognised. -/
def milestoneStep (s0 : AgentState) (s : AgentState) : AgentState :=
  if progressPercent s0.tasks = 25 ∨ progressPercent s0.tasks = 50 ∨ progressPercent s0.tasks = 75 then
    addLog s (progressMilestoneEntry (progressPercent s0.tasks))
  else s

/-- Phase 2 of `executeAgentIteration` (`useAgent.ts`): the code after the
awaited executor call resolves.  `s` is the live store state at resolution
time, `s0` the snapshot the tick captured at its start, `nextTask` the
task selected in phase 1, `outcome` the executor's result or the caught
error's message, `followUps` the value of
`generateFollowUpTasks(nextTask, result, state.objective)`
(`taskGenerator.ts`, not among the provided sources), and `now` the
`Date.now()` read inside `completeTask`. -/
def executeAgentIterationResolve (s : AgentState) (s0 : AgentState) (nextTask : Task)
    (outcome : Except String String) (followUps : List Task) (now : Nat) : AgentState :=
  match outcome with
  | Except.ok res =>
    milestoneStep s0 (followUpStep followUps
      (addLog (addLog (completeTask s nextTask.id res now)
        (taskCompletedEntry nextTask.description)) (resultEntry res)))
  | Except.error msg =>
    addLog (updateTask s nextTask.id { status := some TaskStatus.failed }) (taskFailedEntry msg)

/-- One full tick of `executeAgentIteration` in which the awaited executor
call resolves before anything else touches the store (the non-interleaved
schedule). -/
def executeAgentIteration (s0 : AgentState) (initialTasks : List Task)
    (outcome : Except String String) (followUps : List Task) (now : Nat) : AgentState :=
  match executeAgentIterationStart s0 initialTasks with
  | (s1, none) => s1
  | (s1, some t) => executeAgentIterationResolve s1 s0 t outcome followUps now

/-- The environment-supplied data consumed by one sequential tick. -/
structure TickInput where
  initialTasks : List Task
  outcome : Except String String
  followUps : List Task
  now : Nat
deriving Repr

/-- A run of the loop: sequential ticks, one per timer firing. -/
def runTicks (s : AgentState) : List TickInput → AgentState
  | [] => s
  | i :: is => runTicks (executeAgentIteration s i.initialTasks i.outcome i.followUps i.now) is

/-- The store state produced by phase 1 when it goes on to execute `t`:
iteration bumped, `t` marked `running`, start and mode logs appended. -/
def startedState (s0 : AgentState) (t : Task) : AgentState :=
  addLog (addLog (updateTask (incrementIteration s0) t.id { status := some TaskStatus.running })
    (taskStartedEntry t.description)) (modeEntry s0)

/-- Concrete tuning settings (the store's defaults, simulated mode). -/
def exSettings : Settings :=
  { apiKey := "", provider := Provider.openrouter, model := "meta-llama/llama-3.1-8b-instruct:free",
    temperature := 0, iterationDelay := 1000, maxTokens := 1000, enableSounds := false,
    autoScroll := true, maxIterations := 20 }

/-- A concrete pending task. -/
def taskA : Task :=
  { id := "a", description := "task a", status := TaskStatus.pending, priority := 2, createdAt := 0 }

/-- A second concrete pending task, lower priority than `taskA`. -/
def taskB : Task :=
  { id := "b", description := "task b", status := TaskStatus.pending, priority := 1, createdAt := 0 }

/-- A concrete completed task with the given id. -/
def doneTask (i : String) : Task :=
  { id := i, description := "done " ++ i, status := TaskStatus.completed, priority := 1,
    createdAt := 0, completedAt := some 1, result := some "ok" }

/-- A mid-run state: two pending tasks, loop running, budget not reached. -/
def baseState : AgentState :=
  { objective := "obj", tasks := [taskA, taskB], executionLog := [], isRunning := true,
    isPaused := false, currentIteration := 0, maxIterations := 20, mode := AgentMode.simulated,
    settings := exSettings, theme := Theme.dark, sidebarCollapsed := false, selectedTask := none,
    sessionId := "1" }

/-- A third concrete pending task, lowest priority. -/
def taskC : Task :=
  { id := "c", description := "task c", status := TaskStatus.pending, priority := 0, createdAt := 0 }

/-- A pending task depending on the task with id `t2`. -/
def depTask : Task :=
  { id := "t1", description := "needs t2", status := TaskStatus.pending, priority := 2,
    createdAt := 0, dependencies := some ["t2"] }

/-- A pending task depending on a task id that exists (`t2`) and on one
that matches no task (`ghost`). -/
def ghostDepTask : Task :=
  { id := "g1", description := "ghost dep", status := TaskStatus.pending, priority := 1,
    createdAt := 0, dependencies := some ["ghost", "t2"] }

/-- A running state holding a single pending task. -/
def singleTaskState : AgentState := { baseState with tasks := [taskA] }

/-- A running state in which three of four tasks are already completed. -/
def milestoneState : AgentState :=
  { baseState with tasks := [doneTask "1", doneTask "2", doneTask "3", taskA] }

/-- A running state in which one of four tasks is already completed. -/
def quarterState : AgentState :=
  { baseState with tasks := [doneTask "1", taskA, taskB, taskC] }

/-- A running state that has exhausted its iteration budget. -/
def budgetState : AgentState := { baseState with currentIteration := 20 }

/-- A running state whose only task is completed. -/
def doneState : AgentState := { baseState with tasks := [doneTask "1"] }

/-- A mid-run state whose `sessionId` happens to equal the clock value at
which `resetAgent` will fire. -/
def sessionState : AgentState := { baseState with sessionId := "5", currentIteration := 3 }

/-! ## Helper lemmas -/

lemma foldl_addTask (ts : List Task) (s : AgentState) :
    ts.foldl addTask s = { s with tasks := s.tasks ++ ts } := by
  induction ts generalizing s with
  | nil => simp
  | cons t ts ih => simp [List.foldl, addTask, ih]

lemma mem_insertByPriority {a t : Task} {l : List Task} :
    a ∈ insertByPriority t l ↔ a = t ∨ a ∈ l := by
  induction l with
  | nil => simp [insertByPriority]
  | cons u us ih =>
    simp only [insertByPriority]
    split
    · rw [List.mem_cons, ih, List.mem_cons]; tauto
    · rw [List.mem_cons, List.mem_cons]

lemma mem_prioritizeTasks {a : Task} {l : List Task} :
    a ∈ prioritizeTasks l ↔ a ∈ l := by
  induction l with
  | nil => simp [prioritizeTasks]
  | cons u us ih =>
    simp only [prioritizeTasks, List.foldr] at ih ⊢
    rw [mem_insertByPriority]
    simp [ih]

lemma selectNextTask_mem {ts : List Task} {t : Task} (h : selectNextTask ts = some t) :
    t ∈ ts :=
  mem_prioritizeTasks.1 (List.mem_of_find?_eq_some h)

lemma selectNextTask_selectable {ts : List Task} {t : Task} (h : selectNextTask ts = some t) :
    t.status = TaskStatus.pending ∧ hasPendingDependencies t ts = false := by
  have := List.find?_some h
  simpa [selectable] using this

lemma find_id_of_nodup {ts : List Task} (hnd : (ts.map Task.id).Nodup) {dt : Task}
    (hdt : dt ∈ ts) {d : String} (hid : dt.id = d) :
    ts.find? (fun x => x.id == d) = some dt := by
  induction ts with
  | nil => cases hdt
  | cons u us ih =>
    rw [List.map_cons, List.nodup_cons] at hnd
    by_cases hu : (u.id == d) = true
    · rw [@List.find?_cons_of_pos _ (fun x => x.id == d) u us hu]
      rcases List.mem_cons.1 hdt with rfl | hmem
      · rfl
      · refine absurd ?_ hnd.1
        rw [beq_iff_eq.mp hu, ← hid]
        exact List.mem_map_of_mem Task.id hmem
    · rw [@List.find?_cons_of_neg _ (fun x => x.id == d) u us hu]
      rcases List.mem_cons.1 hdt with rfl | hmem
      · exact absurd (beq_iff_eq.mpr hid) hu
      · exact ih hnd.2 hmem

/-! ### Phase-result characterizations of `executeAgentIterationStart` -/

lemma start_of_guard {s0 : AgentState} (init : List Task)
    (h : s0.isRunning = false ∨ s0.isPaused = true) :
    executeAgentIterationStart s0 init = (s0, none) := by
  unfold executeAgentIterationStart
  rw [if_pos h]

lemma start_of_budget {s0 : AgentState} (init : List Task)
    (hr : s0.isRunning = true) (hp : s0.isPaused = false)
    (hb : s0.maxIterations ≤ s0.currentIteration) :
    executeAgentIterationStart s0 init =
      (pauseAgent (addLog s0 (maxIterationsEntry s0.maxIterations)), none) := by
  unfold executeAgentIterationStart
  rw [if_neg (by simp [hr, hp]), if_pos hb]

lemma start_of_seed {s0 : AgentState} (init : List Task)
    (hr : s0.isRunning = true) (hp : s0.isPaused = false)
    (hb : s0.currentIteration < s0.maxIterations)
    (hseed : s0.tasks.length = 0 ∧ s0.objective ≠ "") :
    executeAgentIterationStart s0 init =
      (addLog (init.foldl addTask s0) (initialTasksEntry init.length), none) := by
  unfold executeAgentIterationStart
  rw [if_neg (by simp [hr, hp]), if_neg (by omega), if_pos hseed]

lemma start_of_complete {s0 : AgentState} (init : List Task)
    (hr : s0.isRunning = true) (hp : s0.isPaused = false)
    (hb : s0.currentIteration < s0.maxIterations)
    (hseed : ¬(s0.tasks.length = 0 ∧ s0.objective ≠ ""))
    (hsel : selectNextTask s0.tasks = none)
    (hall : ∀ t ∈ s0.tasks, t.status = TaskStatus.completed ∨ t.status = TaskStatus.failed)
    (hc : 0 < completedCount s0.tasks) :
    executeAgentIterationStart s0 init = (pauseAgent (addLog s0 allCompletedEntry), none) := by
  unfold executeAgentIterationStart
  rw [if_neg (by simp [hr, hp]), if_neg (by omega), if_neg hseed, hsel]
  exact if_pos ⟨hall, hc⟩

lemma start_of_blocked {s0 : AgentState} (init : List Task)
    (hr : s0.isRunning = true) (hp : s0.isPaused = false)
    (hb : s0.currentIteration < s0.maxIterations)
    (hseed : ¬(s0.tasks.length = 0 ∧ s0.objective ≠ ""))
    (hsel : selectNextTask s0.tasks = none)
    (hcond : ¬((∀ t ∈ s0.tasks, t.status = TaskStatus.completed ∨ t.status = TaskStatus.failed) ∧
      0 < completedCount s0.tasks)) :
    executeAgentIterationStart s0 init = (s0, none) := by
  unfold executeAgentIterationStart
  rw [if_neg (by simp [hr, hp]), if_neg (by omega), if_neg hseed, hsel]
  exact if_neg hcond

lemma start_of_select {s0 : AgentState} (init : List Task) {t : Task}
    (hr : s0.isRunning = true) (hp : s0.isPaused = false)
    (hb : s0.currentIteration < s0.maxIterations)
    (hseed : ¬(s0.tasks.length = 0 ∧ s0.objective ≠ ""))
    (hsel : selectNextTask s0.tasks = some t) :
    executeAgentIterationStart s0 init = (startedState s0 t, some t) := by
  unfold executeAgentIterationStart
  rw [if_neg (by simp [hr, hp]), if_neg (by omega), if_neg hseed, hsel]
  rfl

lemma followUpStep_eq (fw : List Task) (s : AgentState) :
    followUpStep fw s =
      { s with tasks := s.tasks ++ fw,
               executionLog := s.executionLog ++
                 if 0 < fw.length then [followUpEntry fw.length] else [] } := by
  by_cases h : 0 < fw.length
  · unfold followUpStep
    rw [if_pos h, if_pos h]
    simp [addLog, foldl_addTask]
  · unfold followUpStep
    rw [if_neg h, if_neg h]
    have h0 : fw = [] := List.length_eq_zero.mp (by omega)
    simp [h0]

lemma milestoneStep_eq (s0 s : AgentState) :
    milestoneStep s0 s =
      { s with executionLog := s.executionLog ++
          if progressPercent s0.tasks = 25 ∨ progressPercent s0.tasks = 50 ∨
              progressPercent s0.tasks = 75 then
            [progressMilestoneEntry (progressPercent s0.tasks)]
          else [] } := by
  by_cases h : progressPercent s0.tasks = 25 ∨ progressPercent s0.tasks = 50 ∨
      progressPercent s0.tasks = 75
  · unfold milestoneStep
    rw [if_pos h, if_pos h]
    simp [addLog]
  · unfold milestoneStep
    rw [if_neg h, if_neg h]
    simp

lemma resolve_ok_char (s s0 : AgentState) (t : Task) (res : String) (fw : List Task) (n : Nat) :
    executeAgentIterationResolve s s0 t (Except.ok res) fw n =
      { s with
        tasks := (s.tasks.map fun u =>
            if u.id = t.id then
              { u with status := TaskStatus.completed, result := some res, completedAt := some n }
            else u) ++ fw,
        executionLog := s.executionLog ++
          ([taskCompletedEntry t.description, resultEntry res] ++
            (if 0 < fw.length then [followUpEntry fw.length] else []) ++
            (if progressPercent s0.tasks = 25 ∨ progressPercent s0.tasks = 50 ∨
                progressPercent s0.tasks = 75 then
              [progressMilestoneEntry (progressPercent s0.tasks)]
            else [])) } := by
  show milestoneStep s0 (followUpStep fw _) = _
  rw [milestoneStep_eq, followUpStep_eq]
  simp [addLog, completeTask, List.append_assoc]

lemma resolve_err_char (s s0 : AgentState) (t : Task) (msg : String) (fw : List Task) (n : Nat) :
    executeAgentIterationResolve s s0 t (Except.error msg) fw n =
      { s with
        tasks := s.tasks.map fun u =>
          if u.id = t.id then { u with status := TaskStatus.failed } else u,
        executionLog := s.executionLog ++ [taskFailedEntry msg] } := by
  show addLog (updateTask s t.id { status := some TaskStatus.failed }) (taskFailedEntry msg) = _
  simp [addLog, updateTask, applyTaskUpdate]

lemma resolve_isPaused (s s0 : AgentState) (t : Task) (o : Except String String)
    (fw : List Task) (n : Nat) :
    (executeAgentIterationResolve s s0 t o fw n).isPaused = s.isPaused := by
  cases o with
  | ok res => rw [resolve_ok_char]
  | error msg => rw [resolve_err_char]

lemma resolve_isRunning (s s0 : AgentState) (t : Task) (o : Except String String)
    (fw : List Task) (n : Nat) :
    (executeAgentIterationResolve s s0 t o fw n).isRunning = s.isRunning := by
  cases o with
  | ok res => rw [resolve_ok_char]
  | error msg => rw [resolve_err_char]

lemma resolve_currentIteration (s s0 : AgentState) (t : Task) (o : Except String String)
    (fw : List Task) (n : Nat) :
    (executeAgentIterationResolve s s0 t o fw n).currentIteration = s.currentIteration := by
  cases o with
  | ok res => rw [resolve_ok_char]
  | error msg => rw [resolve_err_char]

lemma resolve_maxIterations (s s0 : AgentState) (t : Task) (o : Except String String)
    (fw : List Task) (n : Nat) :
    (executeAgentIterationResolve s s0 t o fw n).maxIterations = s.maxIterations := by
  cases o with
  | ok res => rw [resolve_ok_char]
  | error msg => rw [resolve_err_char]

lemma startedState_char (s0 : AgentState) (t : Task) :
    startedState s0 t =
      { s0 with
        currentIteration := s0.currentIteration + 1,
        tasks := s0.tasks.map fun u =>
          if u.id = t.id then { u with status := TaskStatus.running } else u,
        executionLog := s0.executionLog ++ [taskStartedEntry t.description, modeEntry s0] } := by
  simp [startedState, addLog, updateTask, incrementIteration, applyTaskUpdate, List.append_assoc]

/-- The sequential tick, written as one top-level case tree (the branch
structure of `executeAgentIteration` with the suspension point already
resolved). -/
lemma tick_char (s0 : AgentState) (i : List Task) (o : Except String String)
    (f : List Task) (n : Nat) :
    executeAgentIteration s0 i o f n =
      if s0.isRunning = false ∨ s0.isPaused = true then s0
      else if s0.maxIterations ≤ s0.currentIteration then
        pauseAgent (addLog s0 (maxIterationsEntry s0.maxIterations))
      else if s0.tasks.length = 0 ∧ s0.objective ≠ "" then
        addLog (i.foldl addTask s0) (initialTasksEntry i.length)
      else
        match selectNextTask s0.tasks with
        | none =>
          if (∀ t ∈ s0.tasks, t.status = TaskStatus.completed ∨ t.status = TaskStatus.failed) ∧
              0 < completedCount s0.tasks then
            pauseAgent (addLog s0 allCompletedEntry)
          else s0
        | some t => executeAgentIterationResolve (startedState s0 t) s0 t o f n := by
  unfold executeAgentIteration executeAgentIterationStart
  by_cases h1 : s0.isRunning = false ∨ s0.isPaused = true
  · rw [if_pos h1, if_pos h1]
  · rw [if_neg h1, if_neg h1]
    by_cases h2 : s0.maxIterations ≤ s0.currentIteration
    · rw [if_pos h2, if_pos h2]
    · rw [if_neg h2, if_neg h2]
      by_cases h3 : s0.tasks.length = 0 ∧ s0.objective ≠ ""
      · rw [if_pos h3, if_pos h3]
      · rw [if_neg h3, if_neg h3]
        cases hsel : selectNextTask s0.tasks with
        | none =>
          by_cases h4 : (∀ t ∈ s0.tasks,
              t.status = TaskStatus.completed ∨ t.status = TaskStatus.failed) ∧
              0 < completedCount s0.tasks
          · rw [if_pos h4, if_pos h4]
          · rw [if_neg h4, if_neg h4]
        | some t => rfl

lemma tick_maxIterations (s0 : AgentState) (i : List Task) (o : Except String String)
    (f : List Task) (n : Nat) :
    (executeAgentIteration s0 i o f n).maxIterations = s0.maxIterations := by
  rw [tick_char]
  split
  · rfl
  · split
    · rfl
    · split
      · simp [addLog, foldl_addTask]
      · split
        · split
          · rfl
          · rfl
        · rw [resolve_maxIterations]
          rfl

lemma tick_iteration_mono (s0 : AgentState) (i : List Task) (o : Except String String)
    (f : List Task) (n : Nat) :
    s0.currentIteration ≤ (executeAgentIteration s0 i o f n).currentIteration := by
  rw [tick_char]
  split
  · exact Nat.le_refl _
  · split
    · exact Nat.le_refl _
    · split
      · simp [addLog, foldl_addTask]
      · split
        · split
          · exact Nat.le_refl _
          · exact Nat.le_refl _
        · rw [resolve_currentIteration, startedState_char]
          exact Nat.le_succ _

lemma tick_iteration_le (s0 : AgentState) (i : List Task) (o : Except String String)
    (f : List Task) (n : Nat) (h : s0.currentIteration ≤ s0.maxIterations) :
    (executeAgentIteration s0 i o f n).currentIteration ≤ s0.maxIterations := by
  rw [tick_char]
  split
  · exact h
  · split
    · exact h
    · next h1 h2 =>
      split
      · simpa [addLog, foldl_addTask] using h
      · split
        · split
          · exact h
          · exact h
        · rw [resolve_currentIteration, startedState_char]
          show s0.currentIteration + 1 ≤ s0.maxIterations
          omega

lemma runTicks_maxIterations (ins : List TickInput) (s : AgentState) :
    (runTicks s ins).maxIterations = s.maxIterations := by
  induction ins generalizing s with
  | nil => rfl
  | cons a as ih => rw [runTicks, ih, tick_maxIterations]

lemma runTicks_iteration_mono (ins : List TickInput) (s : AgentState) :
    s.currentIteration ≤ (runTicks s ins).currentIteration := by
  induction ins generalizing s with
  | nil => exact Nat.le_refl _
  | cons a as ih =>
    rw [runTicks]
    exact Nat.le_trans (tick_iteration_mono s a.initialTasks a.outcome a.followUps a.now) (ih _)

lemma runTicks_iteration_le (ins : List TickInput) (s : AgentState)
    (h : s.currentIteration ≤ s.maxIterations) :
    (runTicks s ins).currentIteration ≤ (runTicks s ins).maxIterations := by
  rw [runTicks_maxIterations]
  induction ins generalizing s with
  | nil => exact h
  | cons a as ih =>
    rw [runTicks]
    have h1 : (executeAgentIteration s a.initialTasks a.outcome a.followUps a.now).currentIteration ≤
        (executeAgentIteration s a.initialTasks a.outcome a.followUps a.now).maxIterations := by
      rw [tick_maxIterations]
      exact tick_iteration_le s a.initialTasks a.outcome a.followUps a.now h
    calc (runTicks (executeAgentIteration s a.initialTasks a.outcome a.followUps a.now) as).currentIteration
        ≤ (executeAgentIteration s a.initialTasks a.outcome a.followUps a.now).maxIterations := ih _ h1
      _ = s.maxIterations := tick_maxIterations s a.initialTasks a.outcome a.followUps a.now

lemma map_targeted_failed (l : List Task) (tid xid : String) (hne : tid ≠ xid)
    (F : Task → Task) (hFid : ∀ v, (F v).id = v.id)
    (hs : ∀ u ∈ l, u.id = xid → u.status = TaskStatus.failed) :
    ∀ u ∈ l.map (fun v => if v.id = tid then F v else v),
      u.id = xid → u.status = TaskStatus.failed := by
  intro u hu hid
  rcases List.mem_map.1 hu with ⟨v, hv, rfl⟩
  by_cases h : v.id = tid
  · rw [if_pos h] at hid
    rw [hFid v, h] at hid
    exact absurd hid hne
  · rw [if_neg h] at hid ⊢
    exact hs v hv hid

lemma failed_tasks_stay_failed (s0 : AgentState) (i : List Task) (o : Except String String)
    (f : List Task) (n : Nat) (xid : String)
    (hs : ∀ u ∈ s0.tasks, u.id = xid → u.status = TaskStatus.failed)
    (hi : ∀ u ∈ i, u.id ≠ xid) (hf : ∀ u ∈ f, u.id ≠ xid) :
    ∀ u ∈ (executeAgentIteration s0 i o f n).tasks,
      u.id = xid → u.status = TaskStatus.failed := by
  rw [tick_char]
  split
  · exact hs
  · split
    · exact hs
    · split
      · intro u hu hid
        simp only [addLog, foldl_addTask, List.mem_append] at hu
        rcases hu with h' | h'
        · exact hs u h' hid
        · exact absurd hid (hi u h')
      · split
        · split
          · exact hs
          · exact hs
        · next t hsel =>
          have hpend := (selectNextTask_selectable hsel).1
          have htmem := selectNextTask_mem hsel
          have htid : t.id ≠ xid := by
            intro he
            have hst := hs t htmem he
            rw [hpend] at hst
            cases hst
          have hinner := map_targeted_failed s0.tasks t.id xid htid
            (fun u => { u with status := TaskStatus.running }) (fun v => rfl) hs
          cases o with
          | ok res =>
            have hts : (executeAgentIterationResolve (startedState s0 t) s0 t
                (Except.ok res) f n).tasks =
                ((s0.tasks.map fun u =>
                    if u.id = t.id then { u with status := TaskStatus.running } else u).map
                  fun u =>
                    if u.id = t.id then { u with status := TaskStatus.completed, result := some res, completedAt := some n } else u) ++ f := by
              rw [resolve_ok_char, startedState_char]
            intro u hu hid
            rw [hts] at hu
            rcases List.mem_append.1 hu with hm | hm
            · exact map_targeted_failed _ t.id xid htid
                (fun u => { u with status := TaskStatus.completed, result := some res, completedAt := some n })
                (fun v => rfl) hinner u hm hid
            · exact absurd hid (hf u hm)
          | error msg =>
            have hts : (executeAgentIterationResolve (startedState s0 t) s0 t
                (Except.error msg) f n).tasks =
                (s0.tasks.map fun u =>
                    if u.id = t.id then { u with status := TaskStatus.running } else u).map
                  fun u => if u.id = t.id then { u with status := TaskStatus.failed } else u := by
              rw [resolve_err_char, startedState_char]
            intro u hu hid
            rw [hts] at hu
            exact map_targeted_failed _ t.id xid htid
              (fun u => { u with status := TaskStatus.failed }) (fun v => rfl) hinner u hu hid

/-! ## Claim theorems -/

/-- C1: the spec claims at most one task ever has status `running` and that a
new tick never begins executing while a previous tick's executing phase is
unresolved.  The implementation violates this: the `setInterval` callback has
no in-flight guard (the `agentLoopRef` check only prevents registering a
second interval), so when the timer fires while the first tick's awaited
executor call is still pending, the second tick runs its pre-await phase
against the live store.  Starting from `baseState` (two pending tasks), the
first phase-1 selects `taskA` and marks it `running`; a second phase-1 run
before the first resolves selects `taskB` and marks it `running` too, leaving
two tasks with status `running` at once. -/
theorem c1_overlapping_ticks_two_running :
    (executeAgentIterationStart baseState []).2 = some taskA ∧
    (executeAgentIterationStart (executeAgentIterationStart baseState []).1 []).2 = some taskB ∧
    ((executeAgentIterationStart (executeAgentIterationStart baseState []).1 []).1.tasks.filter
      (fun t => t.status == TaskStatus.running)).length = 2 := by
  refine ⟨?_, ?_, ?_⟩ <;> decide

/-- C5: the spec claims the loop checks `isRunning`/`isPaused` when the
delegated call resolves, before committing any mutation, so a pause issued
mid-call discards the result.  The implementation's post-await code commits
`completeTask` unconditionally: starting from `singleTaskState`, phase 1
puts `taskA` in flight, the operator pauses while the call is pending, and
when the call resolves the post-await phase still marks `taskA` completed
with the stale result even though the state is paused. -/
theorem c5_stale_resolution_commits_after_pause :
    (executeAgentIterationStart singleTaskState []).2 = some taskA ∧
    (executeAgentIterationResolve (pauseAgent (executeAgentIterationStart singleTaskState []).1)
      singleTaskState taskA (Except.ok "late result") [] 7).isPaused = true ∧
    (executeAgentIterationResolve (pauseAgent (executeAgentIterationStart singleTaskState []).1)
      singleTaskState taskA (Except.ok "late result") [] 7).tasks =
      [{ taskA with status := TaskStatus.completed, result := some "late result", completedAt := some 7 }] := by
  refine ⟨?_, ?_, ?_⟩ <;> decide

/-- C8 counterexample: the claim says `setObjective` leaves the objective
unchanged whenever `isRunning` is true; in the store, `setObjective`
replaces the objective unconditionally, so it changes it in the running
state `baseState`. -/
theorem c8_setObjective_changes_objective_while_running :
    baseState.isRunning = true ∧
    (setObjective baseState "new objective").objective ≠ baseState.objective := by
  refine ⟨rfl, ?_⟩
  decide

/-- C8 (amended): `setObjective(text)` replaces the stored objective in
every state, running or not, and changes nothing else. -/
theorem c8_setObjective_unconditional (s : AgentState) (text : String) :
    (setObjective s text).objective = text ∧
    (setObjective s text).tasks = s.tasks ∧
    (setObjective s text).executionLog = s.executionLog ∧
    (setObjective s text).isRunning = s.isRunning ∧
    (setObjective s text).isPaused = s.isPaused ∧
    (setObjective s text).currentIteration = s.currentIteration ∧
    (setObjective s text).settings = s.settings :=
  ⟨rfl, rfl, rfl, rfl, rfl, rfl, rfl⟩

/-- C9 counterexample: the claim says every reset assigns a `sessionId`
differing from the previous one; the store derives the new id from
`Date.now()`, so a reset whose clock reading equals the previous id (for
instance two resets within the same millisecond) reuses it. -/
theorem c9_reset_can_reuse_sessionId :
    (resetAgent sessionState 5).sessionId = sessionState.sessionId := by
  decide

/-- C9 (amended): after `reset()` in any state, `tasks` and `executionLog`
are empty, `currentIteration` is `0`, `isRunning` and `isPaused` are false,
and the `settings`, `theme`, `mode` and `maxIterations` fields are
untouched; the new `sessionId` is the reset-time clock string, which
differs from the previous id exactly when the clock reading differs. -/
theorem c9_reset_clears_runtime_state (s : AgentState) (now : Nat) :
    (resetAgent s now).tasks = [] ∧
    (resetAgent s now).executionLog = [] ∧
    (resetAgent s now).currentIteration = 0 ∧
    (resetAgent s now).isRunning = false ∧
    (resetAgent s now).isPaused = false ∧
    (resetAgent s now).sessionId = toString now ∧
    (resetAgent s now).settings = s.settings ∧
    (resetAgent s now).theme = s.theme ∧
    (resetAgent s now).mode = s.mode ∧
    (resetAgent s now).maxIterations = s.maxIterations :=
  ⟨rfl, rfl, rfl, rfl, rfl, rfl, rfl, rfl, rfl, rfl⟩

/-- C3: `currentIteration` never decreases across a tick or a run of ticks;
the budget check precedes seeding and selection, and when
`currentIteration >= maxIterations` (with the loop running and unpaused) the
tick exactly logs the `milestone` budget entry and pauses, touching nothing
else; consequently a run that starts within budget never pushes
`currentIteration` past `maxIterations`. -/
theorem c3_iteration_monotone_and_budget (s0 : AgentState) (i : List Task)
    (o : Except String String) (f : List Task) (n : Nat) :
    s0.currentIteration ≤ (executeAgentIteration s0 i o f n).currentIteration ∧
    (executeAgentIteration s0 i o f n).maxIterations = s0.maxIterations ∧
    (s0.isRunning = true → s0.isPaused = false → s0.maxIterations ≤ s0.currentIteration →
      executeAgentIteration s0 i o f n =
        pauseAgent (addLog s0 (maxIterationsEntry s0.maxIterations))) ∧
    (s0.currentIteration ≤ s0.maxIterations →
      (executeAgentIteration s0 i o f n).currentIteration ≤ s0.maxIterations) ∧
    (∀ ins : List TickInput, s0.currentIteration ≤ (runTicks s0 ins).currentIteration) ∧
    (∀ ins : List TickInput, s0.currentIteration ≤ s0.maxIterations →
      (runTicks s0 ins).currentIteration ≤ (runTicks s0 ins).maxIterations) := by
  refine ⟨tick_iteration_mono s0 i o f n, tick_maxIterations s0 i o f n, ?_,
    tick_iteration_le s0 i o f n, fun ins => runTicks_iteration_mono ins s0,
    fun ins h => runTicks_iteration_le ins s0 h⟩
  intro hr hp hb
  unfold executeAgentIteration
  rw [start_of_budget i hr hp hb]

/-- C3 witness: at `budgetState` (iteration 20 of 20) the tick halts in the
budget shape, and the iteration counter does not decrease. -/
theorem c3_witness :
    executeAgentIteration budgetState [] (Except.ok "r") [] 0 =
      pauseAgent (addLog budgetState (maxIterationsEntry budgetState.maxIterations)) ∧
    budgetState.currentIteration ≤
      (executeAgentIteration budgetState [] (Except.ok "r") [] 0).currentIteration :=
  ⟨(c3_iteration_monotone_and_budget budgetState [] (Except.ok "r") [] 0).2.2.1 rfl rfl
      (by decide),
    (c3_iteration_monotone_and_budget budgetState [] (Except.ok "r") [] 0).1⟩

/-- C4 counterexample: the claim says a failed task's `result` field is set
to the failure reason.  In the implementation the failure path runs
`updateTask(id, { status: 'failed' })` without a `result` field, so at
`singleTaskState` with executor failure `"boom"` the task ends `failed`
with `result` still `none`, not `some "boom"`. -/
theorem c4_failed_task_result_not_set :
    (executeAgentIteration singleTaskState [] (Except.error "boom") [] 0).tasks =
      [{ taskA with status := TaskStatus.failed }] ∧
    ({ taskA with status := TaskStatus.failed } : Task).result = none := by
  refine ⟨?_, rfl⟩
  decide

/-- C4 (amended): on executor failure the selected task is marked `failed`
with its `result` field left unchanged (the failure reason goes into the
appended `error` log entry instead), the loop's running/paused flags are
untouched (the loop is not terminated), a task is only ever selected while
`pending` (so a failed task is never re-executed), and tasks recorded as
`failed` stay `failed` across any further tick whose injected tasks do not
reuse their id. -/
theorem c4_failure_marks_failed_and_continues (s0 : AgentState) (i : List Task)
    (f : List Task) (n : Nat) (t : Task) (msg : String)
    (hr : s0.isRunning = true) (hp : s0.isPaused = false)
    (hb : s0.currentIteration < s0.maxIterations)
    (hseed : ¬(s0.tasks.length = 0 ∧ s0.objective ≠ ""))
    (hsel : selectNextTask s0.tasks = some t) :
    (executeAgentIteration s0 i (Except.error msg) f n).tasks =
      s0.tasks.map (fun u => if u.id = t.id then { u with status := TaskStatus.failed } else u) ∧
    (executeAgentIteration s0 i (Except.error msg) f n).executionLog =
      s0.executionLog ++ [taskStartedEntry t.description, modeEntry s0, taskFailedEntry msg] ∧
    (executeAgentIteration s0 i (Except.error msg) f n).isRunning = s0.isRunning ∧
    (executeAgentIteration s0 i (Except.error msg) f n).isPaused = s0.isPaused ∧
    (∀ (ts' : List Task) (u : Task), selectNextTask ts' = some u →
      u.status = TaskStatus.pending) ∧
    (∀ (s1 : AgentState) (i' : List Task) (o' : Except String String) (f' : List Task)
      (n' : Nat) (xid : String),
      (∀ u ∈ s1.tasks, u.id = xid → u.status = TaskStatus.failed) →
      (∀ u ∈ i', u.id ≠ xid) → (∀ u ∈ f', u.id ≠ xid) →
      ∀ u ∈ (executeAgentIteration s1 i' o' f' n').tasks,
        u.id = xid → u.status = TaskStatus.failed) := by
  have hstep : executeAgentIteration s0 i (Except.error msg) f n =
      executeAgentIterationResolve (startedState s0 t) s0 t (Except.error msg) f n := by
    unfold executeAgentIteration
    rw [start_of_select i hr hp hb hseed hsel]
  refine ⟨?_, ?_, ?_, ?_, fun ts' u h => (selectNextTask_selectable h).1,
    fun s1 i' o' f' n' xid => failed_tasks_stay_failed s1 i' o' f' n' xid⟩
  · rw [hstep, resolve_err_char, startedState_char]
    show (s0.tasks.map _).map _ = _
    rw [List.map_map]
    apply List.map_congr_left
    intro u _
    by_cases h : u.id = t.id <;> simp [h, Function.comp]
  · rw [hstep, resolve_err_char, startedState_char]
    show (s0.executionLog ++ [taskStartedEntry t.description, modeEntry s0]) ++
        [taskFailedEntry msg] = _
    simp [List.append_assoc]
  · rw [hstep, resolve_isRunning, startedState_char]
  · rw [hstep, resolve_isPaused, startedState_char]

/-- C4 witness: at `baseState` with failure `"boom"` the tick marks `taskA`
failed in place and keeps the loop flags. -/
theorem c4_witness :
    (executeAgentIteration baseState [] (Except.error "boom") [] 0).tasks =
      baseState.tasks.map
        (fun u => if u.id = taskA.id then { u with status := TaskStatus.failed } else u) ∧
    (executeAgentIteration baseState [] (Except.error "boom") [] 0).isRunning =
      baseState.isRunning :=
  ⟨(c4_failure_marks_failed_and_continues baseState [] [] 0 taskA "boom" rfl rfl (by decide)
      (by decide) (by decide)).1,
    (c4_failure_marks_failed_and_continues baseState [] [] 0 taskA "boom" rfl rfl (by decide)
      (by decide) (by decide)).2.2.1⟩

/-- C6: with the loop running, unpaused, within budget and past seeding, the
tick ends in the completion stop (the `milestone` entry `allCompletedEntry`
appended and the loop paused) precisely when no task is selectable, every
task is `completed` or `failed`, and at least one `completed` task exists;
and when no task is selectable but that condition fails (for example all
pending tasks are blocked on incomplete dependencies) the tick is a strict
no-op: the state is returned unchanged. -/
theorem c6_completion_stop_iff (s0 : AgentState) (i : List Task) (o : Except String String)
    (f : List Task) (n : Nat)
    (hr : s0.isRunning = true) (hp : s0.isPaused = false)
    (hb : s0.currentIteration < s0.maxIterations)
    (hseed : ¬(s0.tasks.length = 0 ∧ s0.objective ≠ "")) :
    (executeAgentIteration s0 i o f n = pauseAgent (addLog s0 allCompletedEntry) ↔
      (selectNextTask s0.tasks = none ∧
        (∀ t ∈ s0.tasks, t.status = TaskStatus.completed ∨ t.status = TaskStatus.failed) ∧
        0 < completedCount s0.tasks)) ∧
    (selectNextTask s0.tasks = none →
      ¬((∀ t ∈ s0.tasks, t.status = TaskStatus.completed ∨ t.status = TaskStatus.failed) ∧
        0 < completedCount s0.tasks) →
      executeAgentIteration s0 i o f n = s0) := by
  have hnoop : ∀ (_ : selectNextTask s0.tasks = none)
      (_ : ¬((∀ t ∈ s0.tasks, t.status = TaskStatus.completed ∨ t.status = TaskStatus.failed) ∧
        0 < completedCount s0.tasks)),
      executeAgentIteration s0 i o f n = s0 := by
    intro hsel hcond
    unfold executeAgentIteration
    rw [start_of_blocked i hr hp hb hseed hsel hcond]
  refine ⟨⟨?_, ?_⟩, hnoop⟩
  · intro heq
    cases hsel : selectNextTask s0.tasks with
    | some t =>
      exfalso
      have hps : (executeAgentIteration s0 i o f n).isPaused = s0.isPaused := by
        unfold executeAgentIteration
        rw [start_of_select i hr hp hb hseed hsel, resolve_isPaused, startedState_char]
      rw [heq] at hps
      have : (pauseAgent (addLog s0 allCompletedEntry)).isPaused = true := rfl
      rw [this, hp] at hps
      cases hps
    | none =>
      by_cases hcond : (∀ t ∈ s0.tasks,
          t.status = TaskStatus.completed ∨ t.status = TaskStatus.failed) ∧
          0 < completedCount s0.tasks
      · exact ⟨rfl, hcond.1, hcond.2⟩
      · exfalso
        rw [hnoop hsel hcond] at heq
        have hps := congrArg AgentState.isPaused heq
        have : (pauseAgent (addLog s0 allCompletedEntry)).isPaused = true := rfl
        rw [this, hp] at hps
        cases hps
  · rintro ⟨hsel, hall, hc⟩
    unfold executeAgentIteration
    rw [start_of_complete i hr hp hb hseed hsel hall hc]

/-- C6 witness: at `doneState` (one completed task) the tick pauses with the
completion milestone. -/
theorem c6_witness :
    executeAgentIteration doneState [] (Except.ok "r") [] 0 =
      pauseAgent (addLog doneState allCompletedEntry) :=
  ((c6_completion_stop_iff doneState [] (Except.ok "r") [] 0 rfl rfl (by decide) (by decide)).1).2
    ⟨by decide, by decide, by decide⟩

/-- C7 counterexample: the claim says the 25/50/75/100 percent milestones
are logged exactly when the ratio computed strictly after the completion
mutation crosses them.  At `milestoneState` (three of four tasks already
completed) the tick completes the last task, so the post-mutation ratio is
100 percent; but the implementation computes the ratio from the pre-tick
snapshot (3/4) and only recognises 25/50/75, so the tick logs a
`75% complete!` milestone and no 100 percent milestone at all. -/
theorem c7_hundred_percent_milestone_missing :
    completedCount (executeAgentIteration milestoneState [] (Except.ok "r") [] 9).tasks = 4 ∧
    (executeAgentIteration milestoneState [] (Except.ok "r") [] 9).tasks.length = 4 ∧
    (executeAgentIteration milestoneState [] (Except.ok "r") [] 9).executionLog.filter
      (fun e => e.type == LogType.milestone) = [progressMilestoneEntry 75] := by
  refine ⟨?_, ?_, ?_⟩ <;> decide

/-- C7 (amended): on a successful execution tick, exactly one milestone
entry is appended when the floored completion percentage over the tick-start
snapshot (the count of tasks already completed before this tick, over the
snapshot total) is 25, 50 or 75 — the entry's message names that
percentage — and no milestone entry is appended otherwise; in particular
the 100 percent threshold is never logged and nothing deduplicates
thresholds across a session. -/
theorem c7_milestones_from_snapshot (s0 : AgentState) (i f : List Task) (t : Task)
    (res : String) (n : Nat)
    (hr : s0.isRunning = true) (hp : s0.isPaused = false)
    (hb : s0.currentIteration < s0.maxIterations)
    (hseed : ¬(s0.tasks.length = 0 ∧ s0.objective ≠ ""))
    (hsel : selectNextTask s0.tasks = some t) :
    (executeAgentIteration s0 i (Except.ok res) f n).executionLog.take
      s0.executionLog.length = s0.executionLog ∧
    ((executeAgentIteration s0 i (Except.ok res) f n).executionLog.drop
        s0.executionLog.length).filter (fun e => e.type == LogType.milestone) =
      if progressPercent s0.tasks = 25 ∨ progressPercent s0.tasks = 50 ∨
          progressPercent s0.tasks = 75 then
        [progressMilestoneEntry (progressPercent s0.tasks)]
      else [] := by
  have hstep : executeAgentIteration s0 i (Except.ok res) f n =
      executeAgentIterationResolve (startedState s0 t) s0 t (Except.ok res) f n := by
    unfold executeAgentIteration
    rw [start_of_select i hr hp hb hseed hsel]
  have hlog : (executeAgentIteration s0 i (Except.ok res) f n).executionLog =
      s0.executionLog ++
        ([taskStartedEntry t.description, modeEntry s0] ++
          ([taskCompletedEntry t.description, resultEntry res] ++
            (if 0 < f.length then [followUpEntry f.length] else []) ++
            (if progressPercent s0.tasks = 25 ∨ progressPercent s0.tasks = 50 ∨
                progressPercent s0.tasks = 75 then
              [progressMilestoneEntry (progressPercent s0.tasks)]
            else []))) := by
    rw [hstep, resolve_ok_char, startedState_char]
    show (s0.executionLog ++ [taskStartedEntry t.description, modeEntry s0]) ++ _ = _
    simp [List.append_assoc]
  constructor
  · rw [hlog]
    exact List.take_left _ _
  · rw [hlog, List.drop_left, List.filter_append, List.filter_append, List.filter_append]
    have h1 : [taskStartedEntry t.description, modeEntry s0].filter
        (fun e => e.type == LogType.milestone) = [] := by
      unfold modeEntry
      split <;> rfl
    have h2 : [taskCompletedEntry t.description, resultEntry res].filter
        (fun e => e.type == LogType.milestone) = [] := rfl
    have h3 : (if 0 < f.length then [followUpEntry f.length] else []).filter
        (fun e => e.type == LogType.milestone) = [] := by
      split <;> rfl
    have h4 : (if progressPercent s0.tasks = 25 ∨ progressPercent s0.tasks = 50 ∨
          progressPercent s0.tasks = 75 then
        [progressMilestoneEntry (progressPercent s0.tasks)] else []).filter
        (fun e => e.type == LogType.milestone) =
        (if progressPercent s0.tasks = 25 ∨ progressPercent s0.tasks = 50 ∨
            progressPercent s0.tasks = 75 then
          [progressMilestoneEntry (progressPercent s0.tasks)] else []) := by
      split <;> rfl
    rw [h1, h2, h3, h4]
    simp

/-- C7 witness: at `quarterState` (one of four tasks completed) the
successful tick appends exactly the 25 percent milestone. -/
theorem c7_witness :
    (executeAgentIteration quarterState [] (Except.ok "r") [] 3).executionLog.take
      quarterState.executionLog.length = quarterState.executionLog ∧
    ((executeAgentIteration quarterState [] (Except.ok "r") [] 3).executionLog.drop
        quarterState.executionLog.length).filter (fun e => e.type == LogType.milestone) =
      if progressPercent quarterState.tasks = 25 ∨ progressPercent quarterState.tasks = 50 ∨
          progressPercent quarterState.tasks = 75 then
        [progressMilestoneEntry (progressPercent quarterState.tasks)]
      else [] :=
  c7_milestones_from_snapshot quarterState [] [] taskA "r" 3 rfl rfl (by decide) (by decide)
    (by decide)

/-- C2: whenever the Selecting phase chooses a task (task-id uniqueness as
assumed throughout the spec), that task is `pending` and every task of the
sequence matching one of its listed dependency ids is `completed` — so a
task is never selected while a dependency of it is `pending`, `running` or
`failed`. -/
theorem c2_selected_task_dependencies_completed (ts : List Task) (t : Task)
    (hnd : (ts.map Task.id).Nodup) (hsel : selectNextTask ts = some t) :
    t.status = TaskStatus.pending ∧
    ∀ d ∈ t.dependencies.getD [], ∀ dt ∈ ts, dt.id = d →
      dt.status = TaskStatus.completed := by
  obtain ⟨hpend, hdep⟩ := selectNextTask_selectable hsel
  refine ⟨hpend, ?_⟩
  intro d hd dt hdt hid
  have hfind := find_id_of_nodup hnd hdt hid
  cases hdeps : t.dependencies with
  | none =>
    rw [hdeps] at hd
    cases hd
  | some deps =>
    rw [hdeps, Option.getD_some] at hd
    simp only [hasPendingDependencies, hdeps] at hdep
    by_cases hlen : deps.length = 0
    · rw [List.length_eq_zero.mp hlen] at hd
      cases hd
    · rw [if_neg hlen] at hdep
      have hall := List.any_eq_false.mp hdep d hd
      rw [hfind] at hall
      simpa using hall

/-- C2 witness: with `depTask` (depending on `t2`) and the completed task
`t2` in the queue, `depTask` is selected and its dependency is completed. -/
theorem c2_witness :
    depTask.status = TaskStatus.pending ∧
    ∀ d ∈ depTask.dependencies.getD [], ∀ dt ∈ [depTask, doneTask "t2"], dt.id = d →
      dt.status = TaskStatus.completed :=
  c2_selected_task_dependencies_completed [depTask, doneTask "t2"] depTask (by decide)
    (by decide)

/-- C10: a dependency id that matches no task in the sequence never blocks
its task: if every dependency id that does resolve via `find` resolves to a
`completed` task, `hasPendingDependencies` is false, and the task is
eligible for selection whenever it is `pending`. -/
theorem c10_missing_dependency_does_not_block (t : Task) (ts : List Task)
    (h : ∀ d ∈ t.dependencies.getD [], ∀ dt ∈ ts,
      ts.find? (fun x => x.id == d) = some dt → dt.status = TaskStatus.completed) :
    hasPendingDependencies t ts = false ∧
    (t.status = TaskStatus.pending → selectable ts t = true) := by
  have hmain : hasPendingDependencies t ts = false := by
    cases hdeps : t.dependencies with
    | none => simp [hasPendingDependencies, hdeps]
    | some deps =>
      simp only [hasPendingDependencies, hdeps]
      by_cases hlen : deps.length = 0
      · rw [if_pos hlen]
      · rw [if_neg hlen]
        rw [List.any_eq_false]
        intro d hd
        cases hfind : ts.find? (fun x => x.id == d) with
        | none => simp
        | some dt =>
          have hdmem : d ∈ t.dependencies.getD [] := by
            rw [hdeps, Option.getD_some]
            exact hd
          have := h d hdmem dt (List.mem_of_find?_eq_some hfind) hfind
          simp [this]
  exact ⟨hmain, fun hp => by simp [selectable, hp, hmain]⟩

/-- C10 witness: `ghostDepTask` lists the missing id `ghost` and the
completed id `t2`; the missing id does not block it, and it is eligible for
selection. -/
theorem c10_witness :
    hasPendingDependencies ghostDepTask [doneTask "t2"] = false ∧
    (ghostDepTask.status = TaskStatus.pending →
      selectable [doneTask "t2"] ghostDepTask = true) :=
  c10_missing_dependency_does_not_block ghostDepTask [doneTask "t2"] (by decide)

end BabyAGI
